import Mathlib

/-!
Verification of the benchmark-report plotting tool (`scripts/plot_benchmarks.py`).

The script is embedded shallowly: each Python string operation, the two
regular-expression searches, `float()` conversion, the dict-backed sample
tables and the `main` driver are translated into executable Lean
definitions.  Lines of the report file are modelled as `List Char` (the
trailing newline kept by Python's file iteration is immaterial to every
recognised pattern, so lines are taken without it).  Python floats are
modelled as exact rationals: every numeric value in a report is a decimal
literal, and the arithmetic performed on it (averaging short lists) is
exact at the magnitudes the tool handles.
-/

namespace PlotBench

set_option allowUnsafeReducibility true
attribute [local semireducible] Rat.mul Rat.add Rat.inv Rat.sub

/-- A Python string, modelled as its list of characters. -/
abbrev Str := List Char

/-- The Python whitespace class used by `\s` and `str.strip` (ASCII part). -/
def pyWhitespace (c : Char) : Bool :=
  c = ' ' || c = '\t' || c = '\n' || c = '\r' || c = '\x0b' || c = '\x0c'

/-- The `\d` character class. -/
def isDigitC (c : Char) : Bool := '0' ≤ c && c ≤ '9'

/-- Python's substring test `sub in s`. -/
def containsSub (sub : Str) : Str → Bool
  | [] => sub.isPrefixOf []
  | c :: t => sub.isPrefixOf (c :: t) || containsSub sub t

/-- Split at the first occurrence of `sep`: returns the part before and the
part after the separator, or `none` when `sep` does not occur. -/
def splitFirst (sep : Str) : Str → Option (Str × Str)
  | [] => if sep.isPrefixOf [] then some ([], List.drop sep.length []) else none
  | c :: t =>
    if sep.isPrefixOf (c :: t) then some ([], (c :: t).drop sep.length)
    else (splitFirst sep t).map fun p => (c :: p.1, p.2)

/-- Fuel-driven worker for `pySplit`; the fuel of `pySplit` always suffices
because each split removes at least the (nonempty) separator. -/
def pySplitF : Nat → Str → Str → List Str
  | 0, _, s => [s]
  | fuel + 1, sep, s =>
    match splitFirst sep s with
    | none => [s]
    | some (b, a) => b :: pySplitF fuel sep a

/-- Python's `s.split(sep)` for a nonempty separator: split at every
non-overlapping occurrence, left to right. -/
def pySplit (sep s : Str) : List Str := pySplitF (s.length + 1) sep s

/-- Python's `s.strip()`. -/
def strip (s : Str) : Str :=
  ((s.dropWhile pyWhitespace).reverse.dropWhile pyWhitespace).reverse

/-- The Python exceptions the script can raise, plus the usage exit. -/
inductive PyErr where
  | attributeError   -- `.group(1)` on the `None` returned by a failed `re.search`
  | valueError       -- `float()` applied to a non-numeric string
  | keyError         -- dict lookup `results[current_method]` with an unknown key
  | typeError        -- `'Basic' in cfg` with `cfg = None`
  | indexError       -- list indexing out of range
  | usageExit        -- wrong argument count: usage message, exit status 1
deriving DecidableEq, Repr

instance {ε α : Type} [DecidableEq ε] [DecidableEq α] : DecidableEq (Except ε α) :=
  fun x y =>
    match x, y with
    | .error e1, .error e2 =>
      if h : e1 = e2 then .isTrue (by rw [h]) else .isFalse (by simp [h])
    | .ok a1, .ok a2 =>
      if h : a1 = a2 then .isTrue (by rw [h]) else .isFalse (by simp [h])
    | .error _, .ok _ => .isFalse (by simp)
    | .ok _, .error _ => .isFalse (by simp)

/-- Python list indexing `l[i]` (for the split results). -/
def pyAt (l : List Str) (i : Nat) : Except PyErr Str :=
  match l.get? i with
  | some x => .ok x
  | none => .error .indexError

/-- The `\s*([\d.]+)` suffix of the search pattern, tried at the point where
the literal label has just matched: skip the maximal whitespace run, then
take the maximal nonempty run of digits and dots.  (The two character
classes are disjoint, so the regex engine's backtracking can never produce
any other match.) -/
def numRunAt (lbl s : Str) : Option Str :=
  if lbl.isPrefixOf s then
    let rest := (s.drop lbl.length).dropWhile pyWhitespace
    let run := rest.takeWhile fun c => isDigitC c || c = '.'
    if run.isEmpty then none else some run
  else none

/-- `re.search(lbl + r'\s*([\d.]+)', s)`: the group captured at the leftmost
position where the whole pattern matches (the search tries each start
position left to right). -/
def reSearchNum (lbl : Str) : Str → Option Str
  | [] =>
    match numRunAt lbl [] with
    | some r => some r
    | none => none
  | c :: t =>
    match numRunAt lbl (c :: t) with
    | some r => some r
    | none => reSearchNum lbl t

/-- Value of a string of decimal digits. -/
def digitsToNat (s : Str) : Nat := s.foldl (fun a c => 10 * a + (c.toNat - 48)) 0

/-- Value of the decimal `<ip>.<fp>` with digit strings `ip` and `fp`. -/
def decOfParts (ip fp : Str) : ℚ :=
  (digitsToNat ip : ℚ) + (digitsToNat fp : ℚ) / (10 : ℚ) ^ fp.length

/-- Python's `float()` on a string drawn from the class `[\d.]+`: it
succeeds exactly when the string has at most one dot and at least one
digit (so `"5"`, `"5."`, `".5"` convert; `"."`, `"1.2.3"` raise). -/
def pyFloat (s : Str) : Option ℚ :=
  if s.count '.' ≤ 1 && s.any isDigitC then
    match splitFirst ['.'] s with
    | none => some (digitsToNat s : ℚ)
    | some (ip, fp) => some (decOfParts ip fp)
  else none

/-- `float(re.search(lbl + r'\s*([\d.]+)', line).group(1))`: a failed search
raises `AttributeError`, a failed conversion raises `ValueError`. -/
def extractNum (lbl s : Str) : Except PyErr ℚ :=
  match reSearchNum lbl s with
  | none => .error .attributeError
  | some run =>
    match pyFloat run with
    | none => .error .valueError
    | some q => .ok q

/-! ## The parser (`parse_benchmark_results`) -/

/-- The two parallel tables: `results[m]` and `configs[m]` for the three
fixed dict keys `GET`, `POST`, `WebSocket`. -/
structure Agg where
  getR : List ℚ
  postR : List ℚ
  wsR : List ℚ
  getC : List (Option Str)
  postC : List (Option Str)
  wsC : List (Option Str)
deriving DecidableEq, Repr

def Agg.empty : Agg := ⟨[], [], [], [], [], []⟩

/-- The scan state: the tables plus the two last-write-wins latches. -/
structure PState where
  agg : Agg
  currentMethod : Option Str
  currentConfig : Option Str
deriving DecidableEq, Repr

def initState : PState := ⟨Agg.empty, none, none⟩

/-- `results[key].append(v); configs[key].append(cfg)` — a key other than
the three fixed ones raises `KeyError`. -/
def appendSample (a : Agg) (key : Str) (v : ℚ) (cfg : Option Str) : Except PyErr Agg :=
  if key = "GET".data then
    .ok { a with getR := a.getR ++ [v], getC := a.getC ++ [cfg] }
  else if key = "POST".data then
    .ok { a with postR := a.postR ++ [v], postC := a.postC ++ [cfg] }
  else if key = "WebSocket".data then
    .ok { a with wsR := a.wsR ++ [v], wsC := a.wsC ++ [cfg] }
  else .error .keyError

/-- Branch 1 guard: `'=== ' in line and ' Benchmark ===' in line`. -/
def sectionCond (l : Str) : Bool :=
  containsSub "=== ".data l && containsSub " Benchmark ===".data l

/-- Branch 2 guard: `'Method: ' in line`. -/
def methodCond (l : Str) : Bool := containsSub "Method: ".data l

/-- Branch 3 guard: `'Requests/second:' in line`. -/
def rpsCond (l : Str) : Bool := containsSub "Requests/second:".data l

/-- Branch 4 guard: `'WebSocket messages/second:' in line`. -/
def wsCond (l : Str) : Bool := containsSub "WebSocket messages/second:".data l

def rpsLabel : Str := "Requests/second:".data
def msgLabel : Str := "messages/second:".data

/-- One iteration of the scan loop of `parse_benchmark_results`: the four
`if`/`elif` branches in the source's order, first match wins. -/
def processLine (st : PState) (line : Str) : Except PyErr PState :=
  if sectionCond line then
    match pyAt (pySplit "=== ".data line) 1 with
    | .error e => .error e
    | .ok part =>
      match pyAt (pySplit " Benchmark".data part) 0 with
      | .error e => .error e
      | .ok cfg => .ok { st with currentConfig := some cfg }
  else if methodCond line then
    match pyAt (pySplit "Method: ".data line) 1 with
    | .error e => .error e
    | .ok part => .ok { st with currentMethod := some (strip part) }
  else if rpsCond line then
    match extractNum rpsLabel line with
    | .error e => .error e
    | .ok rps =>
      match st.currentMethod with
      | none => .ok st
      | some m =>
        if m.isEmpty then .ok st
        else
          match appendSample st.agg m rps st.currentConfig with
          | .error e => .error e
          | .ok agg => .ok { st with agg := agg }
  else if wsCond line then
    match extractNum msgLabel line with
    | .error e => .error e
    | .ok mps =>
      .ok { st with agg :=
        { st.agg with wsR := st.agg.wsR ++ [mps], wsC := st.agg.wsC ++ [st.currentConfig] } }
  else .ok st

/-- The scan loop over all lines. -/
def runLines (st : PState) : List Str → Except PyErr PState
  | [] => .ok st
  | l :: ls =>
    match processLine st l with
    | .error e => .error e
    | .ok st' => runLines st' ls

/-- `parse_benchmark_results`: scan every line from the empty state and
return the two tables. -/
def parseLines (lines : List Str) : Except PyErr Agg :=
  match runLines initState lines with
  | .error e => .error e
  | .ok st => .ok st.agg

/-! ## The chart renderers and the CSV writer -/

/-- Python's `sub in cfg` where `cfg` is a latched configuration label that
may still be `None`: membership on `None` raises `TypeError`. -/
def pyIn (sub : Str) : Option Str → Except PyErr Bool
  | none => .error .typeError
  | some s => .ok (containsSub sub s)

/-- The comprehension `[rps for rps, cfg in zip(results[m], configs[m]) if
sub in cfg]`, evaluating its condition left to right (so the first `None`
label raises). -/
def filterByCfg (sub : Str) : List (ℚ × Option Str) → Except PyErr (List ℚ)
  | [] => .ok []
  | (v, c) :: rest =>
    match pyIn sub c with
    | .error e => .error e
    | .ok b =>
      match filterByCfg sub rest with
      | .error e => .error e
      | .ok tail => .ok (if b then v :: tail else tail)

/-- `np.mean(l) if l else 0`. -/
def meanOr0 (l : List ℚ) : ℚ := if l.isEmpty then 0 else l.sum / l.length

/-- `plot_http_comparison`, reduced to the data it draws: the pair
`(basic_means, high_means)` for the methods `['GET', 'POST']`, computed in
the loop's order (GET basic, GET high, POST basic, POST high). -/
def httpComparison (a : Agg) : Except PyErr (List ℚ × List ℚ) :=
  match filterByCfg "Basic".data (a.getR.zip a.getC) with
  | .error e => .error e
  | .ok gb =>
    match filterByCfg "High Concurrency".data (a.getR.zip a.getC) with
    | .error e => .error e
    | .ok gh =>
      match filterByCfg "Basic".data (a.postR.zip a.postC) with
      | .error e => .error e
      | .ok pb =>
        match filterByCfg "High Concurrency".data (a.postR.zip a.postC) with
        | .error e => .error e
        | .ok ph => .ok ([meanOr0 gb, meanOr0 pb], [meanOr0 gh, meanOr0 ph])

/-- Decimal digits of a natural number (fuel-driven; `n + 1` fuel always
suffices since a number has at most `n + 1` digits). -/
def natDigitsF : Nat → Nat → Str
  | 0, _ => []
  | fuel + 1, n =>
    if n < 10 then [Char.ofNat (48 + n)]
    else natDigitsF fuel (n / 10) ++ [Char.ofNat (48 + n % 10)]

def natDigits (n : Nat) : Str := natDigitsF (n + 1) n

/-- The least number of decimal places that writes `q` exactly. -/
def decExp (q : ℚ) : Option Nat := (List.range 40).find? fun k => (q * 10 ^ k).den = 1

/-- Python's `f'{x}'` on the nonnegative floats the parser produces: the
minimal decimal form, with integers printed as `n.0` (the report's values
are exact decimals, which this renders just as `repr(float)` does). -/
def pyFloatRepr (q : ℚ) : Str :=
  match decExp q with
  | none => "inf".data
  | some 0 => natDigits q.num.toNat ++ ".0".data
  | some (k + 1) =>
    let ds := natDigits (q * 10 ^ (k + 1)).num.toNat
    let ds := if ds.length < k + 2 then List.replicate (k + 2 - ds.length) '0' ++ ds else ds
    ds.take (ds.length - (k + 1)) ++ '.' :: ds.drop (ds.length - (k + 1))

/-- `f'{cfg}'` on the stored label: `None` prints as the text `None`. -/
def cfgText : Option Str → Str
  | none => "None".data
  | some s => s

/-- One CSV data row `f'{method},{cfg},{rps}\n'` (without the newline). -/
def csvRow (m : Str) (c : Option Str) (v : ℚ) : Str :=
  m ++ ",".data ++ cfgText c ++ ",".data ++ pyFloatRepr v

/-- The data rows, in dict-insertion order GET, POST, WebSocket, each in
encounter order. -/
def csvRows (a : Agg) : List Str :=
  ((a.getR.zip a.getC).map fun p => csvRow "GET".data p.2 p.1)
    ++ ((a.postR.zip a.postC).map fun p => csvRow "POST".data p.2 p.1)
    ++ ((a.wsR.zip a.wsC).map fun p => csvRow "WebSocket".data p.2 p.1)

/-- The lines of `benchmark_data.csv`. -/
def csvLines (a : Agg) : List Str :=
  "Method,Configuration,RequestsPerSecond".data :: csvRows a

/-- `'/'.join(parts)`. -/
def joinSep (sep : Str) : List Str → Str
  | [] => []
  | [x] => x
  | x :: xs => x ++ sep ++ joinSep sep xs

/-- `'/'.join(report_file.split('/')[:-1])`. -/
def outputDir (path : Str) : Str :=
  joinSep "/".data (pySplit "/".data path).dropLast

/-- What a run writes: the file paths in write order, and the CSV content. -/
structure RunResult where
  files : List Str
  csv : List Str
deriving DecidableEq, Repr

/-- The `main` driver: argument check, parse, then the renderers and the
CSV writer.  `plot_http_comparison` is the only stage after the parse that
can raise (a `TypeError` in its comprehension, before its `savefig`), so
every failure happens before the first output file is written; on success
the files are `http_comparison.png`, `websocket_performance.png` (skipped
when there are no WebSocket samples), `performance_timeline.png` and
`benchmark_data.csv`, all under the derived output directory. -/
def mainModel (argv : List Str) (lines : List Str) : Except PyErr RunResult :=
  if argv.length ≠ 2 then .error .usageExit
  else
    match argv.get? 1 with
    | none => .error .usageExit
    | some path =>
      let dir := outputDir path
      match parseLines lines with
      | .error e => .error e
      | .ok agg =>
        match httpComparison agg with
        | .error e => .error e
        | .ok _means =>
          let wsFiles :=
            if agg.wsR.isEmpty then [] else [dir ++ "/websocket_performance.png".data]
          .ok ⟨(dir ++ "/http_comparison.png".data)
                 :: wsFiles
                 ++ [dir ++ "/performance_timeline.png".data,
                     dir ++ "/benchmark_data.csv".data],
               csvLines agg⟩

/-! ## Spec-side definitions

These follow the specification's words, to be compared with the embedded
code. -/

/-- Written from the spec: a decimal-number match at the head of `s` — one
or more digits, optionally a decimal point followed by one or more digits
(greedy); returns the integer and fraction digit strings. -/
def specDecimalAt (s : Str) : Option (Str × Str) :=
  let ds := s.takeWhile isDigitC
  if ds.isEmpty then none
  else
    match s.drop ds.length with
    | '.' :: r2 =>
      let fs := r2.takeWhile isDigitC
      if fs.isEmpty then some (ds, []) else some (ds, fs)
    | _ => some (ds, [])

/-- Written from the spec: the first (leftmost) match of the decimal-number
pattern in `s`, as a rational. -/
def specFirstDecimalFrom : Str → Option ℚ
  | [] =>
    match specDecimalAt [] with
    | some (ip, fp) => some (decOfParts ip fp)
    | none => none
  | c :: t =>
    match specDecimalAt (c :: t) with
    | some (ip, fp) => some (decOfParts ip fp)
    | none => specFirstDecimalFrom t

/-- Written from the spec: "the first match of a decimal-number pattern …
found after the triggering label within the line". -/
def specFirstDecimalAfter (lbl s : Str) : Option ℚ :=
  match splitFirst lbl s with
  | none => none
  | some (_, rest) => specFirstDecimalFrom rest

/-- Written from the amended claim: the leftmost offset at which the label
occurs followed (after optional whitespace) by a nonempty run of digits
and dots, and that maximal run. -/
def specLeftmostRun (lbl s : Str) : Option Str :=
  match (List.range (s.length + 1)).find? (fun i => (numRunAt lbl (s.drop i)).isSome) with
  | none => none
  | some i => numRunAt lbl (s.drop i)

/-- Written from the spec: the arithmetic mean of exactly those samples
whose configuration label contains the given substring (`0` when none
match). -/
def specSeriesMean (sub : Str) (pairs : List (ℚ × Str)) : ℚ :=
  meanOr0 ((pairs.filter fun p => containsSub sub p.2).map Prod.fst)

/-- The CSV triples as text, in the order the rows are written. -/
def csvTriples (a : Agg) : List (Str × Str × Str) :=
  ((a.getR.zip a.getC).map fun p => ("GET".data, cfgText p.2, pyFloatRepr p.1))
    ++ ((a.postR.zip a.postC).map fun p => ("POST".data, cfgText p.2, pyFloatRepr p.1))
    ++ ((a.wsR.zip a.wsC).map fun p => ("WebSocket".data, cfgText p.2, pyFloatRepr p.1))

/-- Modelled from the spec: no CSV reader exists in the repository, so the
round-trip parser reads a data row as the three comma-separated fields
`<Method>,<Configuration>,<Value>`, the first two commas acting as the
field separators. -/
def csvParseRow (row : Str) : Option (Str × Str × Str) :=
  match splitFirst ",".data row with
  | none => none
  | some (m, rest) =>
    match splitFirst ",".data rest with
    | none => none
    | some (c, v) => some (m, c, v)

/-- Modelled from the spec: parse the data rows back (the first line is the
header). -/
def parseRows : List Str → Option (List (Str × Str × Str))
  | [] => some []
  | r :: rs =>
    match csvParseRow r with
    | none => none
    | some t =>
      match parseRows rs with
      | none => none
      | some ts => some (t :: ts)

/-- Modelled from the spec: parse a whole CSV back into its triples. -/
def csvParseBack (ls : List Str) : Option (List (Str × Str × Str)) :=
  match ls with
  | [] => none
  | _header :: rows => parseRows rows

/-! ## Helper lemmas -/

/-- The alignment invariant: each method's two tables have equal length. -/
def aligned (a : Agg) : Prop :=
  a.getR.length = a.getC.length ∧ a.postR.length = a.postC.length ∧
    a.wsR.length = a.wsC.length

lemma aligned_empty : aligned Agg.empty := by
  simp [aligned, Agg.empty]

lemma appendSample_aligned {a a' : Agg} {key : Str} {v : ℚ} {cfg : Option Str}
    (h : aligned a) (hs : appendSample a key v cfg = .ok a') : aligned a' := by
  obtain ⟨h1, h2, h3⟩ := h
  unfold appendSample at hs
  split at hs
  · injection hs with h4; subst h4; simp [aligned, h1, h2, h3]
  · split at hs
    · injection hs with h4; subst h4; simp [aligned, h1, h2, h3]
    · split at hs
      · injection hs with h4; subst h4; simp [aligned, h1, h2, h3]
      · exact absurd hs (by simp)

lemma processLine_aligned {st st' : PState} {l : Str}
    (h : aligned st.agg) (hp : processLine st l = .ok st') : aligned st'.agg := by
  unfold processLine at hp
  split at hp
  · split at hp
    · exact absurd hp (by simp)
    · split at hp
      · exact absurd hp (by simp)
      · cases hp; simpa using h
  · split at hp
    · split at hp
      · exact absurd hp (by simp)
      · cases hp; simpa using h
    · split at hp
      · split at hp
        · exact absurd hp (by simp)
        · split at hp
          · cases hp; simpa using h
          · split at hp
            · cases hp; simpa using h
            · split at hp
              · exact absurd hp (by simp)
              · cases hp; exact appendSample_aligned h (by assumption)
      · split at hp
        · split at hp
          · exact absurd hp (by simp)
          · cases hp
            obtain ⟨h1, h2, h3⟩ := h
            simp [aligned, h1, h2, h3]
        · cases hp; exact h

lemma runLines_aligned {st st' : PState} {ls : List Str}
    (h : aligned st.agg) (hr : runLines st ls = .ok st') : aligned st'.agg := by
  induction ls generalizing st with
  | nil => cases hr; exact h
  | cons l t ih =>
    unfold runLines at hr
    split at hr
    · exact absurd hr (by simp)
    · exact ih (processLine_aligned h (by assumption)) hr

lemma parseLines_aligned {lines : List Str} {a : Agg}
    (hp : parseLines lines = .ok a) : aligned a := by
  unfold parseLines at hp
  split at hp
  · exact absurd hp (by simp)
  · cases hp; exact runLines_aligned aligned_empty (by assumption)

/-- Scanning a concatenation: scan the first part, then the second from the
state it reached. -/
lemma runLines_append (st : PState) (xs ys : List Str) :
    runLines st (xs ++ ys) =
      match runLines st xs with
      | .error e => .error e
      | .ok st' => runLines st' ys := by
  induction xs generalizing st with
  | nil => simp [runLines]
  | cons l t ih =>
    simp only [List.cons_append, runLines]
    cases processLine st l with
    | error e => rfl
    | ok st' => exact ih st'

lemma splitFirst_isSome {sep s : Str} (h : containsSub sep s = true) :
    (splitFirst sep s).isSome := by
  induction s with
  | nil =>
    unfold containsSub at h
    unfold splitFirst
    simp [h]
  | cons c t ih =>
    unfold containsSub at h
    unfold splitFirst
    by_cases hp : sep.isPrefixOf (c :: t)
    · simp [hp]
    · simp only [hp, Bool.false_or] at h
      simp only [hp, if_neg]
      simpa using ih h

lemma pySplitF_ne_nil (fuel : Nat) (sep s : Str) : pySplitF fuel sep s ≠ [] := by
  cases fuel with
  | zero => simp [pySplitF]
  | succ n =>
    unfold pySplitF
    cases splitFirst sep s with
    | none => simp
    | some p => simp

lemma pySplitF_succ (fuel : Nat) (sep s : Str) :
    pySplitF (fuel + 1) sep s =
      match splitFirst sep s with
      | none => [s]
      | some (b, a) => b :: pySplitF fuel sep a := rfl

lemma pyAt_pySplit_one {sep s : Str} (h : containsSub sep s = true) :
    ∃ r, pyAt (pySplit sep s) 1 = .ok r := by
  have hs := splitFirst_isSome h
  unfold pySplit
  rw [pySplitF_succ]
  cases hsf : splitFirst sep s with
  | none => rw [hsf] at hs; simp at hs
  | some p =>
    obtain ⟨x, xs, hx⟩ :=
      List.exists_cons_of_ne_nil (pySplitF_ne_nil s.length sep p.2)
    exact ⟨x, by simp [pyAt, hx]⟩

lemma filterByCfg_error_of_mem {sub : Str} {pairs : List (ℚ × Option Str)} {v : ℚ}
    (h : (v, (none : Option Str)) ∈ pairs) :
    filterByCfg sub pairs = .error .typeError := by
  induction pairs with
  | nil => simp at h
  | cons p t ih =>
    obtain ⟨v', c'⟩ := p
    cases c' with
    | none => rfl
    | some s' =>
      have ht : (v, (none : Option Str)) ∈ t := by
        rcases List.mem_cons.mp h with h1 | h1
        · exact absurd (congrArg Prod.snd h1) (by simp)
        · exact h1
      simp only [filterByCfg, pyIn, ih ht]

lemma filterByCfg_ok_or (sub : Str) (pairs : List (ℚ × Option Str)) :
    (∃ l, filterByCfg sub pairs = .ok l) ∨ filterByCfg sub pairs = .error .typeError := by
  induction pairs with
  | nil => exact .inl ⟨[], rfl⟩
  | cons p t ih =>
    obtain ⟨v', c'⟩ := p
    cases c' with
    | none => exact .inr rfl
    | some s' =>
      unfold filterByCfg
      rcases ih with ⟨l, hl⟩ | hl
      · exact .inl ⟨_, by rw [hl]; rfl⟩
      · exact .inr (by rw [hl]; rfl)

lemma mem_zip_of_mem_right {l1 : List ℚ} {l2 : List (Option Str)}
    (h : l1.length = l2.length) {c : Option Str} (hc : c ∈ l2) :
    ∃ v, (v, c) ∈ l1.zip l2 := by
  induction l2 generalizing l1 with
  | nil => simp at hc
  | cons x t ih =>
    cases l1 with
    | nil => simp at h
    | cons y t1 =>
      rcases List.mem_cons.mp hc with h1 | h1
      · exact ⟨y, by simp [h1]⟩
      · obtain ⟨v, hv⟩ := ih (by simpa using h) h1
        exact ⟨v, by simp [hv]⟩

lemma filterByCfg_map_some (sub : Str) (l : List (ℚ × Str)) :
    filterByCfg sub (l.map (Prod.map id some)) =
      .ok ((l.filter fun p => containsSub sub p.2).map Prod.fst) := by
  induction l with
  | nil => rfl
  | cons p t ih =>
    obtain ⟨v, c⟩ := p
    unfold filterByCfg
    simp only [List.map_cons, Prod.map, id]
    rw [show pyIn sub (some c) = .ok (containsSub sub c) from rfl, ih]
    by_cases hb : containsSub sub c = true
    · simp [List.filter_cons, hb]
    · simp [List.filter_cons, Bool.not_eq_true] at hb ⊢
      simp [hb]

lemma splitFirst_comma {a : Str} (b : Str) (h : ',' ∉ a) :
    splitFirst ",".data (a ++ ',' :: b) = some (a, b) := by
  induction a with
  | nil => simp [splitFirst, List.isPrefixOf]
  | cons c t ih =>
    have hc : c ≠ ',' := fun hcc => h (by simp [hcc])
    have hp : (",".data).isPrefixOf (c :: (t ++ ',' :: b)) = false := by
      show ((',' == c) && _) = false
      simp [Ne.symm hc]
    have ht := ih fun hm => h (List.mem_cons_of_mem c hm)
    simp [splitFirst, hp, ht]

lemma csvParseRow_csvRow {m : Str} {c : Option Str} {v : ℚ}
    (hm : ',' ∉ m) (hc : ',' ∉ cfgText c) :
    csvParseRow (csvRow m c v) = some (m, cfgText c, pyFloatRepr v) := by
  have he : csvRow m c v = m ++ ',' :: (cfgText c ++ ',' :: pyFloatRepr v) := by
    unfold csvRow
    simp [List.append_assoc]
  unfold csvParseRow
  rw [he, splitFirst_comma _ hm]
  dsimp only
  rw [splitFirst_comma _ hc]

lemma parseRows_cons (r : Str) (rs : List Str) :
    parseRows (r :: rs) =
      match csvParseRow r with
      | none => none
      | some t =>
        match parseRows rs with
        | none => none
        | some ts => some (t :: ts) := rfl

lemma parseRows_append {xs ys : List Str} {ts us : List (Str × Str × Str)}
    (hx : parseRows xs = some ts) (hy : parseRows ys = some us) :
    parseRows (xs ++ ys) = some (ts ++ us) := by
  induction xs generalizing ts with
  | nil => cases hx; simpa using hy
  | cons r rs ih =>
    rw [parseRows_cons] at hx
    rw [List.cons_append, parseRows_cons]
    cases hr : csvParseRow r with
    | none => rw [hr] at hx; exact absurd hx (by simp)
    | some t =>
      rw [hr] at hx
      cases hrs : parseRows rs with
      | none => rw [hrs] at hx; exact absurd hx (by simp)
      | some ts' =>
        rw [hrs] at hx
        injection hx with hx'
        subst hx'
        rw [ih hrs]
        rfl

lemma parseRows_map {α : Type} (g : α → Str) (h : α → Str × Str × Str) (l : List α)
    (H : ∀ x ∈ l, csvParseRow (g x) = some (h x)) :
    parseRows (l.map g) = some (l.map h) := by
  induction l with
  | nil => rfl
  | cons x t ih =>
    simp only [List.map_cons]
    rw [parseRows_cons, H x (List.mem_cons_self x t),
      ih fun y hy => H y (List.mem_cons_of_mem x hy)]

/-- `re.search`'s scan and the "leftmost offset with a match" description
agree. -/
lemma reSearchNum_eq_leftmost (lbl s : Str) :
    reSearchNum lbl s = specLeftmostRun lbl s := by
  induction s with
  | nil =>
    unfold reSearchNum specLeftmostRun
    have h1 : List.range 1 = [0] := rfl
    cases h : numRunAt lbl [] with
    | some r => simp [h1, List.find?_cons, h]
    | none => simp [h1, List.find?_cons, h]
  | cons c t ih =>
    unfold reSearchNum specLeftmostRun
    rw [List.range_succ_eq_map, List.find?_cons]
    cases h : numRunAt lbl (c :: t) with
    | some r => simp [h]
    | none =>
      simp only [List.drop_zero, h, Option.isSome_none]
      rw [List.find?_map, ih]
      have hcomp :
          ((fun i => (numRunAt lbl (List.drop i (c :: t))).isSome) ∘ Nat.succ) =
            fun i => (numRunAt lbl (List.drop i t)).isSome := by
        funext i
        simp [Function.comp, List.drop_succ_cons]
      rw [hcomp]
      unfold specLeftmostRun
      simp only [List.length_cons]
      cases hf : (List.range (t.length + 1)).find?
          (fun i => (numRunAt lbl (List.drop i t)).isSome) with
      | none => simp
      | some i => simp [List.drop_succ_cons]

/-! ## Claim theorems -/

/-- C1 (amended): for every input line that contains the literal substring
"WebSocket messages/second:" and matches none of the higher-precedence
patterns (section marker, method marker, "Requests/second:"), and from
which the numeric extraction succeeds, the parser appends the extracted
value to the WebSocket sample sequence and the current configuration label
to the WebSocket label sequence, regardless of whether a current method is
set.  (The claim's trigger substring "messages/second:" alone does not
trigger this branch; see the counterexample.) -/
theorem ws_trigger_appends_unconditionally (st : PState) (l : Str) (v : ℚ)
    (h1 : sectionCond l = false) (h2 : methodCond l = false) (h3 : rpsCond l = false)
    (h4 : wsCond l = true) (hv : extractNum msgLabel l = .ok v) :
    processLine st l = .ok { st with agg :=
      { st.agg with wsR := st.agg.wsR ++ [v],
                    wsC := st.agg.wsC ++ [st.currentConfig] } } := by
  simp [processLine, h1, h2, h3, h4, hv]

/-- C1 counterexample: the line "messages/second: 42" contains the claim's
trigger substring "messages/second:", matches no higher-precedence
pattern, and carries the extractable value 42, yet the parser ignores it:
the WebSocket tables stay empty. -/
theorem ws_trigger_substring_counterexample :
    sectionCond "messages/second: 42".data = false ∧
    methodCond "messages/second: 42".data = false ∧
    rpsCond "messages/second: 42".data = false ∧
    containsSub "messages/second:".data "messages/second: 42".data = true ∧
    specFirstDecimalAfter "messages/second:".data "messages/second: 42".data = some 42 ∧
    parseLines ["messages/second: 42".data] = .ok Agg.empty := by decide

/-- C2 (amended): a line that is dispatched to the throughput or
WebSocket-message branch (it contains the trigger substring and matches no
higher-precedence pattern) and from which no numeric value can be
extracted makes the whole run fail with that parse error; the error
reaches the caller of `main` and no output file is produced (the model
yields output files only on success, matching the source, where every
write happens after the full parse). -/
theorem failed_extraction_aborts_run (pre post : List Str) (l : Str) (st : PState)
    (e : PyErr) (prog path : Str)
    (hpre : runLines initState pre = .ok st)
    (h1 : sectionCond l = false) (h2 : methodCond l = false)
    (htrig : (rpsCond l = true ∧ extractNum rpsLabel l = .error e) ∨
      (rpsCond l = false ∧ wsCond l = true ∧ extractNum msgLabel l = .error e)) :
    parseLines (pre ++ l :: post) = .error e ∧
      mainModel [prog, path] (pre ++ l :: post) = .error e := by
  have hl : processLine st l = .error e := by
    rcases htrig with ⟨h3, hv⟩ | ⟨h3, h4, hv⟩
    · simp [processLine, h1, h2, h3, hv]
    · simp [processLine, h1, h2, h3, h4, hv]
  have hrun : runLines initState (pre ++ l :: post) = .error e := by
    rw [runLines_append, hpre]
    unfold runLines
    rw [hl]
  have hpl : parseLines (pre ++ l :: post) = .error e := by
    unfold parseLines
    rw [hrun]
  exact ⟨hpl, by unfold mainModel; simp [hpl]⟩

/-- C2 counterexample: the line "Method: Requests/second:" contains the
trigger substring "Requests/second:" and holds no extractable number (no
digit at all), yet the run succeeds and produces output files, because
the line is captured by the higher-precedence method-marker pattern. -/
theorem failed_extraction_shadowed_counterexample :
    containsSub "Requests/second:".data "Method: Requests/second:".data = true ∧
    reSearchNum rpsLabel "Method: Requests/second:".data = none ∧
    specFirstDecimalAfter rpsLabel "Method: Requests/second:".data = none ∧
    (mainModel ["p".data, "f".data] ["Method: Requests/second:".data]).isOk = true := by
  decide

/-- C3: a "Requests/second:" line (not captured by a higher-precedence
pattern) whose value extracts successfully, processed while no current
method is set, leaves the state completely unchanged — the value is
appended to no sample or label sequence — and the scan continues without
error. -/
theorem rps_without_method_discarded (st : PState) (l : Str) (v : ℚ)
    (hm : st.currentMethod = none)
    (h1 : sectionCond l = false) (h2 : methodCond l = false) (h3 : rpsCond l = true)
    (hv : extractNum rpsLabel l = .ok v) :
    processLine st l = .ok st := by
  simp [processLine, h1, h2, h3, hv, hm]

/-- C4: whenever the parse completes, each of the three methods' sample
sequence and label sequence have equal length (so the label recorded with
sample i sits at index i). -/
theorem parse_tables_index_aligned (lines : List Str) (a : Agg)
    (hp : parseLines lines = .ok a) :
    a.getR.length = a.getC.length ∧ a.postR.length = a.postC.length ∧
      a.wsR.length = a.wsC.length :=
  parseLines_aligned hp

/-- C5 (amended): the extraction takes the maximal run of digits-and-dots
that follows the leftmost occurrence of the triggering label which is
followed, after optional whitespace, by such a nonempty run (`.error
.attributeError` when no occurrence qualifies), and then converts that run
as a decimal number, which fails (`.error .valueError`) unless the run has
at most one dot and at least one digit.  It is not the first free-standing
decimal-number match after the label. -/
theorem extraction_is_leftmost_anchored_run (lbl s : Str) :
    extractNum lbl s =
      match specLeftmostRun lbl s with
      | none => .error .attributeError
      | some run =>
        match pyFloat run with
        | none => .error .valueError
        | some q => .ok q := by
  unfold extractNum
  rw [reSearchNum_eq_leftmost]

/-- C5 counterexample: on "Requests/second: 1.2.3" the first match of the
spec's decimal-number pattern after the label is "1.2" (value 6/5), so the
claim says extraction succeeds with 6/5; the code instead captures the
whole run "1.2.3" and fails its float conversion. -/
theorem extraction_first_match_counterexample :
    specFirstDecimalAfter rpsLabel "Requests/second: 1.2.3".data = some (6/5) ∧
    extractNum rpsLabel "Requests/second: 1.2.3".data = .error .valueError := by
  decide

/-- C6: for a bare input filename the derived output directory is the empty
string, and the f-string path prefixing then yields absolute paths in the
filesystem root ("/http_comparison.png", ...), not paths in the current
directory as the claim states. -/
theorem bare_filename_writes_to_root :
    outputDir "report.txt".data = [] ∧
    mainModel ["plot_benchmarks.py".data, "report.txt".data] [] =
      .ok ⟨["/http_comparison.png".data, "/performance_timeline.png".data,
            "/benchmark_data.csv".data],
        ["Method,Configuration,RequestsPerSecond".data]⟩ := by
  decide

/-- C7 (amended): a method-marker line is never itself an error — it only
latches the extracted text; a fatal key-lookup error is raised only when a
subsequent "Requests/second:" line with an extractable value is processed
while a nonempty method outside {GET, POST, WebSocket} is current (an
empty latched method behaves as unset and discards the value instead). -/
theorem unknown_method_deferred_error :
    (∀ (st : PState) (l : Str), sectionCond l = false → methodCond l = true →
      (processLine st l).isOk = true) ∧
    (∀ (st : PState) (l m : Str) (v : ℚ), st.currentMethod = some m →
      m ≠ "GET".data → m ≠ "POST".data → m ≠ "WebSocket".data → m ≠ [] →
      sectionCond l = false → methodCond l = false → rpsCond l = true →
      extractNum rpsLabel l = .ok v →
      processLine st l = .error .keyError) := by
  constructor
  · intro st l h1 h2
    obtain ⟨r, hr⟩ := pyAt_pySplit_one (show containsSub "Method: ".data l = true from h2)
    simp [processLine, h1, h2, hr, Except.isOk, Except.toBool]
  · intro st l m v hm hg hpo hw hne h1 h2 h3 hv
    have hemp : m.isEmpty = false := by
      cases m with
      | nil => exact absurd rfl hne
      | cons c t => rfl
    simp [processLine, h1, h2, h3, hv, hm, hemp, appendSample, hg, hpo, hw]

/-- C7 counterexample: the report consisting of the single marker line
"Method: PUT" — whose extracted method "PUT" is outside
{GET, POST, WebSocket} — is not a fatal error: the parse completes with
empty tables and the whole run succeeds. -/
theorem unknown_method_marker_not_fatal :
    parseLines ["Method: PUT".data] = .ok Agg.empty ∧
    (mainModel ["p".data, "f".data] ["Method: PUT".data]).isOk = true := by
  decide

/-- C8: when every GET and POST label is defined, the http-comparison
"Basic" bar heights are exactly the arithmetic means of the GET
(respectively POST) samples whose configuration label contains "Basic",
and likewise for the "High Concurrency" series, with 0 for an empty
series (the mean is taken by `specSeriesMean`, written from the spec). -/
theorem http_comparison_series_means (a : Agg) (gc pc : List Str)
    (hg : a.getC = gc.map some) (hpc : a.postC = pc.map some) :
    httpComparison a = .ok
      ([specSeriesMean "Basic".data (a.getR.zip gc),
        specSeriesMean "Basic".data (a.postR.zip pc)],
       [specSeriesMean "High Concurrency".data (a.getR.zip gc),
        specSeriesMean "High Concurrency".data (a.postR.zip pc)]) := by
  unfold httpComparison specSeriesMean
  rw [hg, hpc]
  simp only [List.zip_map_right, filterByCfg_map_some]

/-- C9 (amended): for every report whose parse completes, the CSV consists
of exactly N+1 lines (header plus one row per sample in
method-then-encounter order), and — provided no configuration label
contains a comma — parsing the CSV back by splitting each row at its first
two commas recovers exactly the aggregate's (method, configuration, value)
triples, in order, in their textual form. -/
theorem csv_roundtrip_commafree (lines : List Str) (a : Agg)
    (hp : parseLines lines = .ok a)
    (hc : ∀ c ∈ a.getC ++ a.postC ++ a.wsC, ',' ∉ cfgText c) :
    (csvLines a).length = a.getR.length + a.postR.length + a.wsR.length + 1 ∧
      csvParseBack (csvLines a) = some (csvTriples a) := by
  obtain ⟨hal1, hal2, hal3⟩ := parseLines_aligned hp
  constructor
  · unfold csvLines csvRows
    simp [List.length_zip, hal1, hal2, hal3]
    omega
  · unfold csvParseBack csvLines csvRows csvTriples
    have hG : parseRows ((a.getR.zip a.getC).map fun p => csvRow "GET".data p.2 p.1)
        = some ((a.getR.zip a.getC).map fun p =>
            ("GET".data, cfgText p.2, pyFloatRepr p.1)) := by
      apply parseRows_map
      intro p hmem
      obtain ⟨x, y⟩ := p
      exact csvParseRow_csvRow (by decide)
        (hc y (List.mem_append_left _ (List.mem_append_left _ (List.of_mem_zip hmem).2)))
    have hP : parseRows ((a.postR.zip a.postC).map fun p => csvRow "POST".data p.2 p.1)
        = some ((a.postR.zip a.postC).map fun p =>
            ("POST".data, cfgText p.2, pyFloatRepr p.1)) := by
      apply parseRows_map
      intro p hmem
      obtain ⟨x, y⟩ := p
      exact csvParseRow_csvRow (by decide)
        (hc y (List.mem_append_left _ (List.mem_append_right _ (List.of_mem_zip hmem).2)))
    have hW : parseRows ((a.wsR.zip a.wsC).map fun p => csvRow "WebSocket".data p.2 p.1)
        = some ((a.wsR.zip a.wsC).map fun p =>
            ("WebSocket".data, cfgText p.2, pyFloatRepr p.1)) := by
      apply parseRows_map
      intro p hmem
      obtain ⟨x, y⟩ := p
      exact csvParseRow_csvRow (by decide)
        (hc y (List.mem_append_right _ (List.of_mem_zip hmem).2))
    exact parseRows_append (parseRows_append hG hP) hW

/-- C9 counterexample: the report line "=== x,y Benchmark ===" yields the
configuration label "x,y"; its CSV row "GET,x,y,5.0" splits back into the
triple ("GET", "x", "y,5.0"), not the aggregate's ("GET", "x,y", "5.0"),
so the round trip fails. -/
theorem csv_roundtrip_counterexample :
    parseLines ["=== x,y Benchmark ===".data, "Method: GET".data,
        "Requests/second: 5".data] =
      .ok ⟨[5], [], [], [some "x,y".data], [], []⟩ ∧
    csvParseBack (csvLines ⟨[5], [], [], [some "x,y".data], [], []⟩) =
      some [("GET".data, "x".data, "y,5.0".data)] ∧
    csvParseBack (csvLines ⟨[5], [], [], [some "x,y".data], [], []⟩) ≠
      some (csvTriples ⟨[5], [], [], [some "x,y".data], [], []⟩) := by
  decide

/-- C10: if the parse stored any GET or POST sample whose configuration
label is the undefined value (no section marker had been seen), the
http-comparison renderer's substring test on that label raises a type
error and the run aborts with it — before any output file is written (the
model yields files only on success; in the source the comprehension at
line 54 runs before the first `savefig`). -/
theorem none_label_type_error_aborts (lines : List Str) (a : Agg) (prog path : Str)
    (hp : parseLines lines = .ok a)
    (hc : none ∈ a.getC ∨ none ∈ a.postC) :
    mainModel [prog, path] lines = .error .typeError := by
  obtain ⟨hal1, hal2, hal3⟩ := parseLines_aligned hp
  have hh : httpComparison a = .error .typeError := by
    unfold httpComparison
    rcases hc with hg | hpo
    · obtain ⟨v, hv⟩ := mem_zip_of_mem_right hal1 hg
      rw [filterByCfg_error_of_mem hv]
    · rcases filterByCfg_ok_or "Basic".data (a.getR.zip a.getC) with ⟨l1, h1⟩ | h1
      · rw [h1]
        rcases filterByCfg_ok_or "High Concurrency".data (a.getR.zip a.getC) with
          ⟨l2, h2⟩ | h2
        · rw [h2]
          obtain ⟨v, hv⟩ := mem_zip_of_mem_right hal2 hpo
          rw [filterByCfg_error_of_mem hv]
        · rw [h2]
      · rw [h1]
  unfold mainModel
  simp [hp, hh]


/-! ## Concrete witnesses -/

/-- Witness input for C4: one GET sample under a Basic section. -/
def aggC4 : Agg := ⟨[301/2], [], [], [some "Basic".data], [], []⟩

/-- The parser state after latching the out-of-set method "PUT". -/
def stC7 : PState := ⟨Agg.empty, some "PUT".data, none⟩

/-- Witness aggregate for C8: the spec's worked example. -/
def aggC8 : Agg :=
  ⟨[100, 200, 900], [], [],
   [some "Basic".data, some "Basic".data, some "High Concurrency".data], [], []⟩

/-- The GET labels of `aggC8`, unwrapped. -/
def gcC8 : List Str := ["Basic".data, "Basic".data, "High Concurrency".data]

/-- Witness report for C9: one GET and one WebSocket sample. -/
def linesC9 : List Str :=
  ["=== Basic Benchmark ===".data, "Method: GET".data,
   "Requests/second: 150.5".data, "WebSocket messages/second: 42".data]

/-- The aggregate `linesC9` parses to. -/
def aggC9 : Agg := ⟨[301/2], [], [42], [some "Basic".data], [], [some "Basic".data]⟩

/-- Witness report for C10: a GET sample before any section marker. -/
def linesC10 : List Str := ["Method: GET".data, "Requests/second: 100".data]

/-- The aggregate `linesC10` parses to: the label stored is undefined. -/
def aggC10 : Agg := ⟨[100], [], [], [none], [], []⟩

/-- C1 witness: the line "WebSocket messages/second: 42", processed in the
initial state (no current method), appends 42 and the undefined label to
the WebSocket tables. -/
theorem ws_trigger_appends_unconditionally_witness :
    processLine initState "WebSocket messages/second: 42".data =
      .ok { initState with agg :=
        { initState.agg with wsR := initState.agg.wsR ++ [42],
                             wsC := initState.agg.wsC ++ [initState.currentConfig] } } :=
  ws_trigger_appends_unconditionally initState "WebSocket messages/second: 42".data 42
    (by decide) (by decide) (by decide) (by decide) (by decide)

/-- C2 witness: the report consisting of "Requests/second: N/A" makes both
the parse and the whole run fail with the attribute error of the failed
regular-expression search. -/
theorem failed_extraction_aborts_run_witness :
    parseLines ["Requests/second: N/A".data] = .error .attributeError ∧
      mainModel ["p".data, "f".data] ["Requests/second: N/A".data] =
        .error .attributeError :=
  failed_extraction_aborts_run [] [] "Requests/second: N/A".data initState
    .attributeError "p".data "f".data rfl (by decide) (by decide)
    (.inl ⟨by decide, by decide⟩)

/-- C3 witness: "Requests/second: 100" processed in the initial state (no
method yet) leaves the state unchanged. -/
theorem rps_without_method_discarded_witness :
    processLine initState "Requests/second: 100".data = .ok initState :=
  rps_without_method_discarded initState "Requests/second: 100".data 100
    rfl (by decide) (by decide) (by decide) (by decide)

/-- C4 witness: the spec's single-sample report parses to `aggC4`, whose
tables are aligned. -/
theorem parse_tables_index_aligned_witness :
    parseLines ["=== Basic Benchmark ===".data, "Method: GET".data,
        "Requests/second: 150.5".data] = .ok aggC4 ∧
      (aggC4.getR.length = aggC4.getC.length ∧
        aggC4.postR.length = aggC4.postC.length ∧
        aggC4.wsR.length = aggC4.wsC.length) :=
  ⟨by decide,
   parse_tables_index_aligned
     ["=== Basic Benchmark ===".data, "Method: GET".data,
      "Requests/second: 150.5".data] aggC4 (by decide)⟩

/-- C7 witness: "Method: PUT" itself succeeds; a following
"Requests/second: 100" with "PUT" current raises the key error. -/
theorem unknown_method_deferred_error_witness :
    (processLine initState "Method: PUT".data).isOk = true ∧
      processLine stC7 "Requests/second: 100".data = .error .keyError :=
  ⟨unknown_method_deferred_error.1 initState "Method: PUT".data (by decide) (by decide),
   unknown_method_deferred_error.2 stC7 "Requests/second: 100".data "PUT".data 100
     rfl (by decide) (by decide) (by decide) (by decide) (by decide) (by decide)
     (by decide) (by decide)⟩

/-- C8 witness: on the spec's example — GET samples 100, 200, 900 with
labels Basic, Basic, High Concurrency — the renderer's means are the
spec-side series means, whose values are 150 and 900. -/
theorem http_comparison_series_means_witness :
    httpComparison aggC8 = .ok
      ([specSeriesMean "Basic".data (aggC8.getR.zip gcC8),
        specSeriesMean "Basic".data (aggC8.postR.zip ([] : List Str))],
       [specSeriesMean "High Concurrency".data (aggC8.getR.zip gcC8),
        specSeriesMean "High Concurrency".data (aggC8.postR.zip ([] : List Str))]) ∧
      specSeriesMean "Basic".data (aggC8.getR.zip gcC8) = 150 ∧
      specSeriesMean "High Concurrency".data (aggC8.getR.zip gcC8) = 900 :=
  ⟨http_comparison_series_means aggC8 gcC8 [] rfl rfl, by decide, by decide⟩

/-- C9 witness: the two-sample report `linesC9` parses to `aggC9`; its CSV
has 3 lines and parses back to the aggregate's triples. -/
theorem csv_roundtrip_commafree_witness :
    parseLines linesC9 = .ok aggC9 ∧
      ((csvLines aggC9).length =
          aggC9.getR.length + aggC9.postR.length + aggC9.wsR.length + 1 ∧
        csvParseBack (csvLines aggC9) = some (csvTriples aggC9)) :=
  ⟨by decide, csv_roundtrip_commafree linesC9 aggC9 (by decide) (by decide)⟩

/-- C10 witness: `linesC10` stores a GET sample with the undefined label,
and the run aborts with the type error. -/
theorem none_label_type_error_aborts_witness :
    parseLines linesC10 = .ok aggC10 ∧ none ∈ aggC10.getC ∧
      mainModel ["p".data, "f".data] linesC10 = .error .typeError :=
  ⟨by decide, by decide,
   none_label_type_error_aborts linesC10 aggC10 "p".data "f".data
     (by decide) (.inl (by decide))⟩

end PlotBench
